import Mathlib

/-!
Shallow embedding of `examples/bayesian_linear_regression_tensor.py`.

The script builds a toy dataset with `build_toy_dataset`, declares a Bayesian
linear-regression model, and runs 501 iterations of mean-field variational
inference, printing one progress line per iteration.

Numeric values are modelled as exact rationals; the `astype(np.float32)` casts
at the end of `build_toy_dataset` are modelled as the identity on values.
The global NumPy random-number generator (seeded by `ed.set_seed(42)` and
consumed by `scipy.stats.norm.rvs`) is modelled as a fixed stream
`gauss : ℕ → ℚ` of standard-normal draws together with a cursor `rngPos`
into that stream; drawing `size` samples advances the cursor by `size`.
The variational-inference engine, which lives entirely inside the imported
libraries, is an abstract step function on an abstract state type.
-/

/-- The value at index `i` of `np.linspace a b num` (endpoint included):
`a + (b - a) * i / (num - 1)`.  For `num = 1` the denominator is `0` and
division by zero yields `0` in `ℚ`, so the single value is `a`, matching
NumPy, which returns `[a]` when `num = 1`. -/
def linVal (a b : ℚ) (num i : ℕ) : ℚ :=
  a + (b - a) * i / ((num : ℚ) - 1)

/-- Model of `np.linspace(a, b, num)` with the default `endpoint=True`:
`num` evenly spaced values from `a` to `b` inclusive. -/
def linspace (a b : ℚ) (num : ℕ) : List ℚ :=
  (List.range num).map (linVal a b num)

/-- Program state visible to `build_toy_dataset`: the cursor `rngPos` of the
global random-number generator, plus an arbitrary environment `env`
standing for every other piece of program state. -/
structure ProgState (E : Type) where
  rngPos : ℕ
  env : E

/-- Model of `scipy.stats.norm.rvs(loc, scale, size)`: draws `size` samples
`loc + scale * Z` from the seeded global standard-normal stream `gauss`,
advancing the global cursor by `size`. -/
def normRvs {E : Type} (gauss : ℕ → ℚ) (loc scale : ℚ) (size : ℕ)
    (st : ProgState E) : List ℚ × ProgState E :=
  ((List.range size).map fun i => loc + scale * gauss (st.rngPos + i),
   ⟨st.rngPos + size, st.env⟩)

/-- The concatenated feature values
`np.concatenate([np.linspace(0, 2, num=N / 2), np.linspace(6, 8, num=N / 2)])`. -/
def toyX (N : ℕ) : List ℚ :=
  linspace 0 2 (N / 2) ++ linspace 6 8 (N / 2)

/-- Model of `build_toy_dataset(N, noise_std)`.  With
`from __future__ import division`, `N / 2` is true division; under the
script-era NumPy semantics (the one on which the even-`N` calls succeed at
all), `np.linspace` truncates the float `num` to the integer part, which is
what the natural-number division in `toyX` computes.  The `norm.rvs(0,
noise_std, size=N)` call then executes fully in either case, drawing `N`
samples from the global generator and advancing the cursor by `N`.  For
even `N` the call returns the reshaped `(N, 1)` feature matrix and the
response vector `y = 5.0 * X + noise`.  For odd `N` the truncated `X` has
length `N - 1` and the subsequent broadcast against the size-`N` noise (or,
for `N = 1`, the reshape of the empty result) raises after the draws:
modelled as `none` with the cursor already advanced. -/
def build_toy_dataset {E : Type} (gauss : ℕ → ℚ) (N : ℕ) (noise_std : ℚ)
    (st : ProgState E) : Option (List (List ℚ) × List ℚ) × ProgState E :=
  let X := toyX N
  let r := normRvs gauss 0 noise_std N st
  if N % 2 = 0 then
    let y := List.zipWith (fun x n => 5 * x + n) X r.1
    (some (X.map fun v => [v], y), r.2)
  else
    (none, r.2)

/-- A list is evenly spaced when all consecutive differences agree. -/
def evenlySpaced (l : List ℚ) : Prop :=
  ∀ i j : ℕ, i + 1 < l.length → j + 1 < l.length →
    l.getD (i + 1) 0 - l.getD i 0 = l.getD (j + 1) 0 - l.getD j 0

/-- A list is strictly increasing along its indices. -/
def strictIncr (l : List ℚ) : Prop :=
  ∀ i j : ℕ, i < j → j < l.length → l.getD i 0 < l.getD j 0

/-- The state threaded through the training loop: the two data arrays
`X_data` and `y_data` bound into the graph, and the framework-internal
inference state (variational parameters, optimizer slots, ...). -/
structure SessionState (I : Type) where
  xData : List (List ℚ)
  yData : List ℚ
  inf : I

/-- Model of `sess.run([inference.train, inference.loss])`: one optimization
step, which updates only the framework-internal inference state and returns
the current loss; the data arrays are not written. -/
def sessRunStep {I : Type} (trainStep : I → I × ℚ) (s : SessionState I) :
    SessionState I × ℚ :=
  let r := trainStep s.inf
  (⟨s.xData, s.yData, r.1⟩, r.2)

/-- Model of `inference.print_progress(t, loss)`: emits one console line
carrying the iteration index and the loss. -/
def print_progress (t : ℕ) (loss : ℚ) : ℕ × ℚ :=
  (t, loss)

/-- Model of `for t in range(iters): _, loss = sess.run(...);
inference.print_progress(t, loss)`: returns the final state and the list of
printed console lines. -/
def trainingLoop {σ : Type} (step : σ → σ × ℚ) (iters : ℕ) (s0 : σ) :
    σ × List (ℕ × ℚ) :=
  (List.range iters).foldl
    (fun acc t =>
      let r := step acc.1
      (r.1, acc.2 ++ [print_progress t r.2]))
    (s0, [])

/-- The whole script (happy path): `ed.set_seed(42)` pins the stream `gauss`
at cursor `0`; `build_toy_dataset(N)` with `N = 40` and the default
`noise_std = 0.1`; then the 501-iteration training loop over the abstract
inference step. -/
def edScript {I : Type} (gauss : ℕ → ℚ) (trainStep : I → I × ℚ) (inf0 : I) :
    Option (SessionState I × List (ℕ × ℚ)) :=
  match (build_toy_dataset gauss 40 (1 / 10) (⟨0, ()⟩ : ProgState Unit)).1 with
  | none => none
  | some d => some (trainingLoop (sessRunStep trainStep) 501 ⟨d.1, d.2, inf0⟩)

/-- Exception-aware model of one `sess.run` step: any failure inside the
framework surfaces as an error value. -/
def sessRunStepE {I : Type} (trainStep : I → Except String (I × ℚ))
    (s : SessionState I) : Except String (SessionState I × ℚ) :=
  match trainStep s.inf with
  | Except.error e => Except.error e
  | Except.ok r => Except.ok (⟨s.xData, s.yData, r.1⟩, r.2)

/-- Exception-aware model of the training loop: the script has no
try/except, so the first error aborts the loop. -/
def trainingLoopE {σ : Type} (step : σ → Except String (σ × ℚ)) (iters : ℕ)
    (s0 : σ) : Except String (σ × List (ℕ × ℚ)) :=
  (List.range iters).foldlM
    (fun acc t =>
      match step acc.1 with
      | Except.error e => Except.error e
      | Except.ok r => Except.ok (r.1, acc.2 ++ [print_progress t r.2]))
    (s0, [])

/-- Exception-aware model of the whole script: a failure of the dataset
builder or of any framework step propagates unhandled to the top level. -/
def edScriptE {I : Type} (gauss : ℕ → ℚ) (trainStep : I → Except String (I × ℚ))
    (inf0 : I) : Except String (List (ℕ × ℚ)) :=
  match (build_toy_dataset gauss 40 (1 / 10) (⟨0, ()⟩ : ProgState Unit)).1 with
  | none => Except.error "build_toy_dataset raised"
  | some d =>
    match trainingLoopE (sessRunStepE trainStep) 501 ⟨d.1, d.2, inf0⟩ with
    | Except.error e => Except.error e
    | Except.ok r => Except.ok r.2

theorem length_linspace (a b : ℚ) (num : ℕ) : (linspace a b num).length = num := by
  simp [linspace]

theorem getD_linspace (a b : ℚ) {num i : ℕ} (h : i < num) :
    (linspace a b num).getD i 0 = linVal a b num i := by
  rw [List.getD_eq_getElem _ _ (by simpa [linspace] using h)]
  simp [linspace, h]

theorem mem_linspace {a b v : ℚ} {num : ℕ} (h : v ∈ linspace a b num) :
    ∃ i, i < num ∧ v = linVal a b num i := by
  simp only [linspace, List.mem_map, List.mem_range] at h
  obtain ⟨i, hi, rfl⟩ := h
  exact ⟨i, hi, rfl⟩

theorem linVal_bounds {a b : ℚ} (hab : a ≤ b) {num i : ℕ} (h : i < num) :
    a ≤ linVal a b num i ∧ linVal a b num i ≤ b := by
  rcases Nat.lt_or_ge num 2 with h2 | h2
  · interval_cases num
    · omega
    · interval_cases i
      refine ⟨?_, ?_⟩ <;> simp [linVal] <;> linarith
  · have hd : (0 : ℚ) < (num : ℚ) - 1 := by
      have : (2 : ℚ) ≤ (num : ℚ) := by exact_mod_cast h2
      linarith
    have hi0 : (0 : ℚ) ≤ (i : ℚ) := by positivity
    have hi1 : (i : ℚ) ≤ (num : ℚ) - 1 := by
      have : (i : ℚ) + 1 ≤ (num : ℚ) := by exact_mod_cast h
      linarith
    constructor
    · have : 0 ≤ (b - a) * i / ((num : ℚ) - 1) :=
        div_nonneg (mul_nonneg (by linarith) hi0) (le_of_lt hd)
      simp only [linVal]; linarith
    · have hle : (b - a) * i ≤ (b - a) * ((num : ℚ) - 1) := by
        apply mul_le_mul_of_nonneg_left hi1
        linarith
      have : (b - a) * i / ((num : ℚ) - 1) ≤ b - a := by
        rw [div_le_iff₀ hd]
        exact hle
      simp only [linVal]; linarith

theorem linVal_strictMono {a b : ℚ} (hab : a < b) {num i j : ℕ}
    (hij : i < j) (hj : j < num) :
    linVal a b num i < linVal a b num j := by
  have hd : (0 : ℚ) < (num : ℚ) - 1 := by
    have h2 : 2 ≤ num := by omega
    have : (2 : ℚ) ≤ (num : ℚ) := by exact_mod_cast h2
    linarith
  have hij' : (i : ℚ) < (j : ℚ) := by exact_mod_cast hij
  have h1 : (b - a) * (i : ℚ) < (b - a) * (j : ℚ) :=
    mul_lt_mul_of_pos_left hij' (by linarith)
  have h2 : (b - a) * (i : ℚ) / ((num : ℚ) - 1) <
      (b - a) * (j : ℚ) / ((num : ℚ) - 1) := (div_lt_div_iff_of_pos_right hd).mpr h1
  simp only [linVal]
  linarith

theorem toyX_length {N : ℕ} (hN : N % 2 = 0) : (toyX N).length = N := by
  simp only [toyX, List.length_append, length_linspace]
  omega

theorem getD_toyX_lo {N i : ℕ} (h : i < N / 2) :
    (toyX N).getD i 0 = linVal 0 2 (N / 2) i := by
  rw [toyX, List.getD_append _ _ _ _ (by simpa [length_linspace] using h)]
  exact getD_linspace 0 2 h

theorem getD_toyX_hi {N i : ℕ} (hN : N % 2 = 0) (h1 : N / 2 ≤ i) (h2 : i < N) :
    (toyX N).getD i 0 = linVal 6 8 (N / 2) (i - N / 2) := by
  rw [toyX, List.getD_append_right _ _ _ _ (by simpa [length_linspace] using h1)]
  rw [length_linspace]
  exact getD_linspace 6 8 (by omega)

theorem build_even {E : Type} (g : ℕ → ℚ) (N : ℕ) (s : ℚ) (st : ProgState E)
    (hN : N % 2 = 0) :
    build_toy_dataset g N s st =
      (some ((toyX N).map fun v => [v],
        List.zipWith (fun x n => 5 * x + n) (toyX N)
          ((List.range N).map fun i => 0 + s * g (st.rngPos + i))),
       ⟨st.rngPos + N, st.env⟩) := by
  simp [build_toy_dataset, normRvs, hN]

/-- Claim C2: for any even N, the two arrays returned by build_toy_dataset
have length N, and the feature array has shape (N, 1): N rows, each of
length 1. -/
theorem build_toy_dataset_shapes {E : Type} (g : ℕ → ℚ) (N : ℕ) (s : ℚ)
    (st : ProgState E) (hN : N % 2 = 0) :
    ∃ X y, (build_toy_dataset g N s st).1 = some (X, y) ∧
      X.length = N ∧ y.length = N ∧ ∀ row ∈ X, row.length = 1 := by
  refine ⟨(toyX N).map fun v => [v],
    List.zipWith (fun x n => 5 * x + n) (toyX N)
      ((List.range N).map fun i => 0 + s * g (st.rngPos + i)), ?_, ?_, ?_, ?_⟩
  · rw [build_even g N s st hN]
  · simp [toyX_length hN]
  · simp [toyX_length hN]
  · intro row hrow
    simp only [List.mem_map] at hrow
    obtain ⟨v, _, rfl⟩ := hrow
    rfl

/-- Witness for C2 at N = 4. -/
theorem build_toy_dataset_shapes_witness :
    4 % 2 = 0 ∧
    ∃ X y,
      (build_toy_dataset (fun _ => 0) 4 (1 / 10) (⟨0, ()⟩ : ProgState Unit)).1 =
        some (X, y) ∧ X.length = 4 ∧ y.length = 4 ∧ ∀ row ∈ X, row.length = 1 :=
  ⟨rfl, build_toy_dataset_shapes (fun _ => 0) 4 (1 / 10) (⟨0, ()⟩ : ProgState Unit) rfl⟩

/-- Claim C10: for odd N the call does not meet the length-N contract: with
true division the per-segment count N / 2 is not a whole number and the call
raises (modelled as none). -/
theorem build_toy_dataset_odd {E : Type} (g : ℕ → ℚ) (N : ℕ) (s : ℚ)
    (st : ProgState E) (h : N % 2 = 1) :
    (build_toy_dataset g N s st).1 = none := by
  simp [build_toy_dataset, h]

/-- Witness for C10 at N = 3. -/
theorem build_toy_dataset_odd_witness :
    3 % 2 = 1 ∧
    (build_toy_dataset (fun _ => 0) 3 (1 / 10) (⟨0, ()⟩ : ProgState Unit)).1 = none :=
  ⟨rfl, build_toy_dataset_odd (fun _ => 0) 3 (1 / 10) (⟨0, ()⟩ : ProgState Unit) rfl⟩

theorem noise_getD (g : ℕ → ℚ) (s : ℚ) (p : ℕ) {N i : ℕ} (hi : i < N) :
    ((List.range N).map fun k => 0 + s * g (p + k)).getD i 0 = s * g (p + i) := by
  rw [List.getD_eq_getElem _ _ (by simpa using hi)]
  simp [hi]

theorem zip_getD (l1 l2 : List ℚ) {i : ℕ} (h1 : i < l1.length) (h2 : i < l2.length) :
    (List.zipWith (fun x n => 5 * x + n) l1 l2).getD i 0 =
      5 * l1.getD i 0 + l2.getD i 0 := by
  rw [List.getD_eq_getElem _ _ (by simp only [List.length_zipWith]; omega),
      List.getD_eq_getElem _ _ h1, List.getD_eq_getElem _ _ h2]
  exact List.getElem_zipWith

theorem mem_linspace_bounds {a b v : ℚ} (hab : a ≤ b) {m : ℕ}
    (hv : v ∈ linspace a b m) : a ≤ v ∧ v ≤ b := by
  obtain ⟨i, hi, rfl⟩ := mem_linspace hv
  exact linVal_bounds hab hi

/-- Claim C1: for even N > 0 and noise standard deviation s, the output is
an (N, 1) feature matrix whose values split evenly between the segments
in the intervals 0 to 2 and 6 to 8, the response is 5 times the feature plus
s times the corresponding standard-normal draw at every point, and with
s = 0 the response is exactly 5 times the feature. -/
theorem build_toy_dataset_points {E : Type} (g : ℕ → ℚ) (N : ℕ) (s : ℚ)
    (st : ProgState E) (hN : N % 2 = 0) (hNpos : 0 < N) (hs : 0 ≤ s) :
    ∃ (xs y : List ℚ),
      (build_toy_dataset g N s st).1 = some (xs.map fun v => [v], y) ∧
      (∃ (l1 l2 : List ℚ), xs = l1 ++ l2 ∧ l1.length = N / 2 ∧ l2.length = N / 2 ∧
        (∀ v ∈ l1, 0 ≤ v ∧ v ≤ 2) ∧ (∀ v ∈ l2, 6 ≤ v ∧ v ≤ 8)) ∧
      y.length = N ∧
      (∀ i, i < N → y.getD i 0 = 5 * xs.getD i 0 + s * g (st.rngPos + i)) ∧
      (s = 0 → ∀ i, i < N → y.getD i 0 = 5 * xs.getD i 0) := by
  refine ⟨toyX N,
    List.zipWith (fun x n => 5 * x + n) (toyX N)
      ((List.range N).map fun i => 0 + s * g (st.rngPos + i)), ?_, ?_, ?_, ?_, ?_⟩
  · rw [build_even g N s st hN]
  · exact ⟨linspace 0 2 (N / 2), linspace 6 8 (N / 2), rfl,
      length_linspace 0 2 (N / 2), length_linspace 6 8 (N / 2),
      fun v hv => mem_linspace_bounds (by norm_num) hv,
      fun v hv => mem_linspace_bounds (by norm_num) hv⟩
  · simp [toyX_length hN]
  · intro i hi
    rw [zip_getD _ _ (by rw [toyX_length hN]; exact hi) (by simpa using hi),
      noise_getD g s st.rngPos hi]
  · intro h0 i hi
    rw [zip_getD _ _ (by rw [toyX_length hN]; exact hi) (by simpa using hi),
      noise_getD g s st.rngPos hi, h0]
    ring

/-- Witness for C1 at N = 2, s = 0. -/
theorem build_toy_dataset_points_witness :
    (2 % 2 = 0 ∧ 0 < 2 ∧ (0 : ℚ) ≤ 0) ∧
    (∃ (xs y : List ℚ),
      (build_toy_dataset (fun _ => 1) 2 0 (⟨0, ()⟩ : ProgState Unit)).1 =
        some (xs.map fun v => [v], y) ∧
      (∃ (l1 l2 : List ℚ), xs = l1 ++ l2 ∧ l1.length = 2 / 2 ∧ l2.length = 2 / 2 ∧
        (∀ v ∈ l1, 0 ≤ v ∧ v ≤ 2) ∧ (∀ v ∈ l2, 6 ≤ v ∧ v ≤ 8)) ∧
      y.length = 2 ∧
      (∀ i, i < 2 → y.getD i 0 =
        5 * xs.getD i 0 + 0 * (fun _ => (1 : ℚ)) ((⟨0, ()⟩ : ProgState Unit).rngPos + i)) ∧
      ((0 : ℚ) = 0 → ∀ i, i < 2 → y.getD i 0 = 5 * xs.getD i 0)) :=
  ⟨⟨rfl, by decide, le_refl 0⟩,
    build_toy_dataset_points (fun _ => 1) 2 0 (⟨0, ()⟩ : ProgState Unit) rfl
      (by decide) (le_refl 0)⟩

theorem evenlySpaced_linspace (a b : ℚ) (m : ℕ) : evenlySpaced (linspace a b m) := by
  intro i j hi hj
  rw [length_linspace] at hi hj
  rw [getD_linspace a b hi, getD_linspace a b (by omega : i < m),
    getD_linspace a b hj, getD_linspace a b (by omega : j < m)]
  simp only [linVal]
  push_cast
  ring

/-- Claim C3: for even N the feature values split into a first half lying in
the interval 0 to 2 and a second half lying in the interval 6 to 8, each
half evenly spaced. -/
theorem build_toy_dataset_halves {E : Type} (g : ℕ → ℚ) (N : ℕ) (s : ℚ)
    (st : ProgState E) (hN : N % 2 = 0) :
    ∃ (xs y : List ℚ),
      (build_toy_dataset g N s st).1 = some (xs.map fun v => [v], y) ∧
      ∃ (l1 l2 : List ℚ), xs = l1 ++ l2 ∧ l1.length = N / 2 ∧ l2.length = N / 2 ∧
        (∀ v ∈ l1, 0 ≤ v ∧ v ≤ 2) ∧ (∀ v ∈ l2, 6 ≤ v ∧ v ≤ 8) ∧
        evenlySpaced l1 ∧ evenlySpaced l2 := by
  refine ⟨toyX N,
    List.zipWith (fun x n => 5 * x + n) (toyX N)
      ((List.range N).map fun i => 0 + s * g (st.rngPos + i)), ?_,
    linspace 0 2 (N / 2), linspace 6 8 (N / 2), rfl,
    length_linspace 0 2 (N / 2), length_linspace 6 8 (N / 2),
    fun v hv => mem_linspace_bounds (by norm_num) hv,
    fun v hv => mem_linspace_bounds (by norm_num) hv,
    evenlySpaced_linspace 0 2 (N / 2), evenlySpaced_linspace 6 8 (N / 2)⟩
  rw [build_even g N s st hN]

/-- Witness for C3 at N = 4. -/
theorem build_toy_dataset_halves_witness :
    4 % 2 = 0 ∧
    (∃ (xs y : List ℚ),
      (build_toy_dataset (fun _ => 0) 4 (1 / 10) (⟨0, ()⟩ : ProgState Unit)).1 =
        some (xs.map fun v => [v], y) ∧
      ∃ (l1 l2 : List ℚ), xs = l1 ++ l2 ∧ l1.length = 4 / 2 ∧ l2.length = 4 / 2 ∧
        (∀ v ∈ l1, 0 ≤ v ∧ v ≤ 2) ∧ (∀ v ∈ l2, 6 ≤ v ∧ v ≤ 8) ∧
        evenlySpaced l1 ∧ evenlySpaced l2) :=
  ⟨rfl, build_toy_dataset_halves (fun _ => 0) 4 (1 / 10) (⟨0, ()⟩ : ProgState Unit) rfl⟩

theorem strictIncr_toyX {N : ℕ} (hN : N % 2 = 0) : strictIncr (toyX N) := by
  intro i j hij hj
  rw [toyX_length hN] at hj
  rcases Nat.lt_or_ge j (N / 2) with hjm | hjm
  · rw [getD_toyX_lo (by omega), getD_toyX_lo hjm]
    exact linVal_strictMono (by norm_num) hij hjm
  · rcases Nat.lt_or_ge i (N / 2) with him | him
    · rw [getD_toyX_lo him, getD_toyX_hi hN hjm hj]
      have hv1 := linVal_bounds (show (0 : ℚ) ≤ 2 by norm_num) him
      have hv2 := linVal_bounds (show (6 : ℚ) ≤ 8 by norm_num)
        (show j - N / 2 < N / 2 by omega)
      linarith [hv1.2, hv2.1]
    · rw [getD_toyX_hi hN him (by omega), getD_toyX_hi hN hjm hj]
      exact linVal_strictMono (by norm_num) (by omega) (by omega)

/-- Claim C9: for even N at least 2 the feature values are strictly
increasing along the array and none lies strictly between 2 and 6. -/
theorem build_toy_dataset_monotone_gap {E : Type} (g : ℕ → ℚ) (N : ℕ) (s : ℚ)
    (st : ProgState E) (hN : N % 2 = 0) (h2 : 2 ≤ N) :
    ∃ (xs y : List ℚ),
      (build_toy_dataset g N s st).1 = some (xs.map fun v => [v], y) ∧
      strictIncr xs ∧ ∀ v ∈ xs, ¬(2 < v ∧ v < 6) := by
  refine ⟨toyX N,
    List.zipWith (fun x n => 5 * x + n) (toyX N)
      ((List.range N).map fun i => 0 + s * g (st.rngPos + i)), ?_,
    strictIncr_toyX hN, ?_⟩
  · rw [build_even g N s st hN]
  · intro v hv
    rw [toyX, List.mem_append] at hv
    rcases hv with hv | hv
    · have := mem_linspace_bounds (show (0 : ℚ) ≤ 2 by norm_num) hv
      rintro ⟨hgt, -⟩
      linarith [this.2]
    · have := mem_linspace_bounds (show (6 : ℚ) ≤ 8 by norm_num) hv
      rintro ⟨-, hlt⟩
      linarith [this.1]

/-- Witness for C9 at N = 4. -/
theorem build_toy_dataset_monotone_gap_witness :
    (4 % 2 = 0 ∧ 2 ≤ 4) ∧
    (∃ (xs y : List ℚ),
      (build_toy_dataset (fun _ => 0) 4 (1 / 10) (⟨0, ()⟩ : ProgState Unit)).1 =
        some (xs.map fun v => [v], y) ∧
      strictIncr xs ∧ ∀ v ∈ xs, ¬(2 < v ∧ v < 6)) :=
  ⟨⟨rfl, by decide⟩,
    build_toy_dataset_monotone_gap (fun _ => 0) 4 (1 / 10) (⟨0, ()⟩ : ProgState Unit)
      rfl (by decide)⟩

/-- Claim C4: two calls with the same arguments, drawing from identically
seeded random sources (same standard-normal stream at the same cursor),
return identical feature and response arrays. -/
theorem build_toy_dataset_deterministic {E F : Type} (g g' : ℕ → ℚ) (N : ℕ)
    (s : ℚ) (st : ProgState E) (st' : ProgState F)
    (hpos : st.rngPos = st'.rngPos) (hg : ∀ i, g i = g' i) :
    (build_toy_dataset g N s st).1 = (build_toy_dataset g' N s st').1 := by
  by_cases hN : N % 2 = 0
  · rw [build_even g N s st hN, build_even g' N s st' hN]
    have hfun : (fun i => 0 + s * g (st.rngPos + i)) =
        fun i => 0 + s * g' (st'.rngPos + i) := by
      funext i
      rw [hpos, hg]
    simp only [hfun]
  · simp [build_toy_dataset, hN]

/-- Witness for C4 at N = 2. -/
theorem build_toy_dataset_deterministic_witness :
    ((⟨3, ()⟩ : ProgState Unit).rngPos = (⟨3, ()⟩ : ProgState Unit).rngPos ∧
      ∀ i : ℕ, (fun _ : ℕ => (1 : ℚ)) i = (fun _ : ℕ => (1 : ℚ)) i) ∧
    (build_toy_dataset (fun _ => 1) 2 (1 / 10) (⟨3, ()⟩ : ProgState Unit)).1 =
      (build_toy_dataset (fun _ => 1) 2 (1 / 10) (⟨3, ()⟩ : ProgState Unit)).1 :=
  ⟨⟨rfl, fun _ => rfl⟩,
    build_toy_dataset_deterministic (fun _ => 1) (fun _ => 1) 2 (1 / 10)
      (⟨3, ()⟩ : ProgState Unit) (⟨3, ()⟩ : ProgState Unit) rfl (fun _ => rfl)⟩

/-- Counterexample to C6 as stated: already at N = 2 the call advances the
global RNG cursor (scipy norm.rvs draws from the global generator), so the
pre-call program state is not preserved. -/
theorem build_toy_dataset_rng_mutation :
    (build_toy_dataset (fun _ => 0) 2 1 (⟨0, ()⟩ : ProgState Unit)).2.rngPos ≠
      (⟨0, ()⟩ : ProgState Unit).rngPos := by
  decide

/-- Claim C6 amended: build_toy_dataset leaves every state component other
than the global RNG cursor unchanged, but advances that cursor by the N
draws of norm.rvs (the draws complete even when a later broadcast raises),
and its result depends only on its arguments and the pre-call cursor. -/
theorem build_toy_dataset_frame {E : Type} (g : ℕ → ℚ) (N : ℕ) (s : ℚ)
    (st st' : ProgState E) (h : st'.rngPos = st.rngPos) :
    (build_toy_dataset g N s st).2.env = st.env ∧
    (build_toy_dataset g N s st).2.rngPos = st.rngPos + N ∧
    (build_toy_dataset g N s st').1 = (build_toy_dataset g N s st).1 := by
  by_cases hN : N % 2 = 0
  · rw [build_even g N s st hN, build_even g N s st' hN]
    simp [hN, h]
  · simp [build_toy_dataset, normRvs, hN]

/-- Witness for the amended C6 at N = 2. -/
theorem build_toy_dataset_frame_witness :
    (⟨0, ()⟩ : ProgState Unit).rngPos = (⟨0, ()⟩ : ProgState Unit).rngPos ∧
    ((build_toy_dataset (fun _ => 0) 2 1 (⟨0, ()⟩ : ProgState Unit)).2.env =
        (⟨0, ()⟩ : ProgState Unit).env ∧
      (build_toy_dataset (fun _ => 0) 2 1 (⟨0, ()⟩ : ProgState Unit)).2.rngPos =
        (⟨0, ()⟩ : ProgState Unit).rngPos + 2 ∧
      (build_toy_dataset (fun _ => 0) 2 1 (⟨0, ()⟩ : ProgState Unit)).1 =
        (build_toy_dataset (fun _ => 0) 2 1 (⟨0, ()⟩ : ProgState Unit)).1) :=
  ⟨rfl, build_toy_dataset_frame (fun _ => 0) 2 1 (⟨0, ()⟩ : ProgState Unit)
    (⟨0, ()⟩ : ProgState Unit) rfl⟩

theorem trainingLoop_out_fst {σ : Type} (step : σ → σ × ℚ) (n : ℕ) (s0 : σ) :
    ((trainingLoop step n s0).2).map Prod.fst = List.range n := by
  induction n with
  | zero => simp [trainingLoop]
  | succ n ih =>
    simp only [trainingLoop, print_progress] at ih ⊢
    rw [List.range_succ, List.foldl_append]
    simp [print_progress, ih]

theorem trainingLoop_out_length {σ : Type} (step : σ → σ × ℚ) (n : ℕ) (s0 : σ) :
    (trainingLoop step n s0).2.length = n := by
  have h := congrArg List.length (trainingLoop_out_fst step n s0)
  simpa using h

theorem trainingLoop_data_const {I : Type} (f : I → I × ℚ) (n : ℕ)
    (s0 : SessionState I) :
    ((trainingLoop (sessRunStep f) n s0).1).xData = s0.xData ∧
    ((trainingLoop (sessRunStep f) n s0).1).yData = s0.yData := by
  induction n with
  | zero => simp [trainingLoop]
  | succ n ih =>
    simp only [trainingLoop] at ih ⊢
    rw [List.range_succ, List.foldl_append]
    simp only [List.foldl_cons, List.foldl_nil, sessRunStep]
    exact ⟨ih.1, ih.2⟩

theorem edScript_eq {I : Type} (g : ℕ → ℚ) (f : I → I × ℚ) (i0 : I) :
    edScript g f i0 = some (trainingLoop (sessRunStep f) 501
      ⟨(toyX 40).map fun v => [v],
       List.zipWith (fun x n => 5 * x + n) (toyX 40)
         ((List.range 40).map fun i => 0 + 1 / 10 * g (0 + i)), i0⟩) := by
  have hb := build_even g 40 (1 / 10) (⟨0, ()⟩ : ProgState Unit) rfl
  simp only [edScript, hb]

/-- Claim C5: the console output of the script is exactly one progress line
per iteration for 501 iterations, carrying the iteration indices 0 through
500 in order together with the loss of that iteration; the model has no
other output channel (no file or network I/O, no argument reading). -/
theorem script_console_lines {I : Type} (g : ℕ → ℚ) (f : I → I × ℚ) (i0 : I) :
    ∃ (st : SessionState I) (out : List (ℕ × ℚ)),
      edScript g f i0 = some (st, out) ∧
      out.length = 501 ∧ out.map Prod.fst = List.range 501 := by
  refine ⟨(trainingLoop (sessRunStep f) 501
      ⟨(toyX 40).map fun v => [v],
       List.zipWith (fun x n => 5 * x + n) (toyX 40)
         ((List.range 40).map fun i => 0 + 1 / 10 * g (0 + i)), i0⟩).1,
    (trainingLoop (sessRunStep f) 501
      ⟨(toyX 40).map fun v => [v],
       List.zipWith (fun x n => 5 * x + n) (toyX 40)
         ((List.range 40).map fun i => 0 + 1 / 10 * g (0 + i)), i0⟩).2,
    (edScript_eq g f i0).trans (congrArg some Prod.mk.eta.symm),
    trainingLoop_out_length _ 501 _, trainingLoop_out_fst _ 501 _⟩

/-- Claim C7: the data arrays are produced by the single build_toy_dataset
call before inference and never modified: every iteration of the training
loop preserves xData and yData, and the arrays held at the end of the run
are exactly the ones the builder returned. -/
theorem script_data_immutable {I : Type} (g : ℕ → ℚ) (f : I → I × ℚ) (i0 : I)
    (n : ℕ) (s0 : SessionState I) :
    ((trainingLoop (sessRunStep f) n s0).1).xData = s0.xData ∧
    ((trainingLoop (sessRunStep f) n s0).1).yData = s0.yData ∧
    ∃ (st : SessionState I) (out : List (ℕ × ℚ)),
      edScript g f i0 = some (st, out) ∧
      (build_toy_dataset g 40 (1 / 10) (⟨0, ()⟩ : ProgState Unit)).1 =
        some (st.xData, st.yData) := by
  refine ⟨(trainingLoop_data_const f n s0).1, (trainingLoop_data_const f n s0).2,
    (trainingLoop (sessRunStep f) 501
      ⟨(toyX 40).map fun v => [v],
       List.zipWith (fun x n => 5 * x + n) (toyX 40)
         ((List.range 40).map fun i => 0 + 1 / 10 * g (0 + i)), i0⟩).1,
    (trainingLoop (sessRunStep f) 501
      ⟨(toyX 40).map fun v => [v],
       List.zipWith (fun x n => 5 * x + n) (toyX 40)
         ((List.range 40).map fun i => 0 + 1 / 10 * g (0 + i)), i0⟩).2,
    (edScript_eq g f i0).trans (congrArg some Prod.mk.eta.symm), ?_⟩
  rw [(trainingLoop_data_const f 501 _).1, (trainingLoop_data_const f 501 _).2]
  rw [build_even g 40 (1 / 10) (⟨0, ()⟩ : ProgState Unit) rfl]

theorem trainingLoopE_err {I : Type} (f : I → Except String (I × ℚ)) (e : String)
    (hf : ∀ s, f s = Except.error e) {n : ℕ} (hn : 0 < n) (s0 : SessionState I) :
    trainingLoopE (sessRunStepE f) n s0 = Except.error e := by
  obtain ⟨m, rfl⟩ : ∃ m, n = m + 1 := ⟨n - 1, by omega⟩
  unfold trainingLoopE
  rw [List.range_succ_eq_map, List.foldlM_cons]
  have hstep : sessRunStepE f s0 = Except.error e := by
    simp [sessRunStepE, hf]
  simp only [hstep]
  rfl

/-- Claim C8: the script installs no handler, so a failure inside the
framework during any run aborts the whole script with that very error. -/
theorem script_error_propagates {I : Type} (g : ℕ → ℚ)
    (f : I → Except String (I × ℚ)) (i0 : I) (e : String)
    (hf : ∀ s, f s = Except.error e) :
    edScriptE g f i0 = Except.error e := by
  have hb := build_even g 40 (1 / 10) (⟨0, ()⟩ : ProgState Unit) rfl
  simp only [edScriptE, hb]
  rw [trainingLoopE_err f e hf (by norm_num)]

/-- Witness for C8: a framework step that always fails aborts the script. -/
theorem script_error_propagates_witness :
    (∀ s : Unit,
      (fun _ : Unit => (Except.error "boom" : Except String (Unit × ℚ))) s =
        Except.error "boom") ∧
    edScriptE (fun _ => 0)
      (fun _ : Unit => (Except.error "boom" : Except String (Unit × ℚ))) () =
      Except.error "boom" :=
  ⟨fun _ => rfl,
    script_error_propagates (fun _ => 0)
      (fun _ : Unit => (Except.error "boom" : Except String (Unit × ℚ))) ()
      "boom" (fun _ => rfl)⟩
